import Mathlib

/-!
# Verification of the Toga `DateInput` and `Slider` core widgets

This file gives a shallow embedding of the widget-controller logic in
`src/core/src/toga/widgets/dateinput.py` and
`src/core/src/toga/widgets/slider.py`, and proves the behavioural claims
about value normalisation, range consistency and change-notification
suppression.

Modelling choices:

* Python floats are modelled as exact rationals (`ℚ`); Python's built-in
  `round` (round-half-to-even) is modelled exactly by `pyRound`.
* A `datetime.date` is modelled by its integer key `y * 10000 + m * 100 + d`;
  for valid calendar dates this key is strictly monotone in the date, so
  comparisons and clipping behave exactly as in Python.  An ISO-8601 string
  input is modelled as carrying the date it parses to (`DateArg.strV`);
  the standard-library parser itself is outside the embedded core.
* The platform backend is not part of this core (the spec lists it as an
  external collaborator behind a narrow contract).  It is modelled as a
  faithful store of the values pushed to it, which is how both the repo's
  `IntSliderImpl` cache and the test backends behave through the contract.
  Following the spec (§4.1), the `DateInput` backend reports a change —
  invoking the currently installed wrapped handler — whenever the stored
  value actually changes.
* `on_change` handlers are modelled by numeric identities: `0` is the
  wrapped `None` (no-op) handler, a nonzero id is a caller-supplied
  handler.  Every operation returns the list of handler ids invoked, in
  order, so "the external handler fired exactly once" is a statement about
  that list.
-/

namespace Toga

/-- Python's built-in `round` on exact rationals: round half to even. -/
def pyRound (q : ℚ) : ℤ :=
  if q - ⌊q⌋ < 1 / 2 then ⌊q⌋
  else if 1 / 2 < q - ⌊q⌋ then ⌊q⌋ + 1
  else if ⌊q⌋ % 2 = 0 then ⌊q⌋ else ⌊q⌋ + 1

theorem floor_le_pyRound (q : ℚ) : ⌊q⌋ ≤ pyRound q := by
  unfold pyRound; split_ifs <;> omega

theorem pyRound_le_floor_add_one (q : ℚ) : pyRound q ≤ ⌊q⌋ + 1 := by
  unfold pyRound; split_ifs <;> omega

theorem pyRound_intCast (k : ℤ) : pyRound (k : ℚ) = k := by
  unfold pyRound
  rw [Int.floor_intCast]
  norm_num

theorem le_pyRound {q : ℚ} {k : ℤ} (h : (k : ℚ) ≤ q) : k ≤ pyRound q :=
  le_trans (Int.le_floor.mpr h) (floor_le_pyRound q)

theorem pyRound_le {q : ℚ} {k : ℤ} (h : q ≤ (k : ℚ)) : pyRound q ≤ k := by
  have hf : ⌊q⌋ ≤ k := by
    have h2 := Int.floor_le_floor h
    simpa using h2
  unfold pyRound
  split_ifs with h1 h2 h3
  · exact hf
  · -- here 1/2 < q - ⌊q⌋, so q is not an integer and ⌊q⌋ < k
    rcases lt_or_eq_of_le hf with h' | h'
    · omega
    · exfalso
      have hq : q ≤ (⌊q⌋ : ℚ) := by
        rw [h']; exact_mod_cast h
      have : (0 : ℚ) < q - ⌊q⌋ := by linarith
      linarith
  · exact hf
  · rcases lt_or_eq_of_le hf with h' | h'
    · omega
    · exfalso
      have hq : q ≤ (⌊q⌋ : ℚ) := by
        rw [h']; exact_mod_cast h
      have hge : (1 : ℚ) / 2 ≤ q - ⌊q⌋ := le_of_not_lt h1
      linarith

theorem pyRound_nonneg {q : ℚ} (h : 0 ≤ q) : 0 ≤ pyRound q :=
  le_pyRound (by exact_mod_cast h)

/-! ## Dates (`dateinput.py`) -/

/-- A calendar date is identified with its integer key
`y * 10000 + m * 100 + d`, which for valid dates is order-isomorphic to
Python's `datetime.date`.  `mkDate` builds the key of a given date. -/
def mkDate (y m d : ℤ) : ℤ := y * 10000 + m * 100 + d

/-- `MIN_DATE = datetime.date(1800, 1, 1)`. -/
def MIN_DATE : ℤ := mkDate 1800 1 1

/-- `MAX_DATE = datetime.date(8999, 12, 31)`. -/
def MAX_DATE : ℤ := mkDate 8999 12 31

/-- The possible Python values passed to `DateInput` date properties:
`None`, a `datetime.datetime` (whose `.date()` is carried), a
`datetime.date`, an ISO-8601 string (carrying the date it parses to),
or any other object (a type error). -/
inductive DateArg where
  | null : DateArg
  | datetimeV (d : ℤ) : DateArg
  | dateV (d : ℤ) : DateArg
  | strV (d : ℤ) : DateArg
  | other : DateArg
deriving DecidableEq

/-- Errors raised by the `DateInput` controller: `TypeError` from
`_convert_date`, `ValueError` from the epoch-window range check. -/
inductive DIErr where
  | typeError : DIErr
  | rangeError : DIErr
deriving DecidableEq

/-- The observable state of a `DateInput`: the backend-stored `value`,
`min` and `max` dates, plus the identity of the installed `on_change`
handler (`0` = the wrapped `None` no-op). -/
structure DateInputState where
  value : ℤ
  min : ℤ
  max : ℤ
  handler : ℕ
deriving DecidableEq

/-- The trailing epoch-window range check of `_convert_date`. -/
def convertChecked (d : ℤ) (check_range : Bool) : Except DIErr ℤ :=
  if check_range then
    if d < MIN_DATE then Except.error DIErr.rangeError
    else if MAX_DATE < d then Except.error DIErr.rangeError
    else Except.ok d
  else Except.ok d

/-- `DateInput._convert_date(value, check_range=...)`.  `today` is the
ambient `datetime.date.today()`. -/
def convertDate (today : ℤ) (v : DateArg) (check_range : Bool) :
    Except DIErr ℤ :=
  match v with
  | .null => convertChecked today check_range
  | .datetimeV d => convertChecked d check_range
  | .dateV d => convertChecked d check_range
  | .strV d => convertChecked d check_range
  | .other => Except.error DIErr.typeError

namespace DateInput

/-- The tail of the `DateInput.value` setter after `_convert_date`: clip the
converted date against `min`/`max` and push it to the backend.  The backend
reports a change (firing the installed handler) iff the stored value
actually changed. -/
def applyValue (s : DateInputState) (d : ℤ) : DateInputState × List ℕ :=
  let d := if d < s.min then s.min else if s.max < d then s.max else d
  ({ s with value := d }, if d = s.value then [] else [s.handler])

/-- The `DateInput.value` setter.  On error, the carried state is the
widget state at the moment the exception is raised. -/
def setValue (today : ℤ) (s : DateInputState) (v : DateArg) :
    Except (DIErr × DateInputState) (DateInputState × List ℕ) :=
  match convertDate today v false with
  | .error e => Except.error (e, s)
  | .ok d => Except.ok (applyValue s d)

/-- The `DateInput.min` setter: `None` maps to `MIN_DATE`, anything else is
converted with the epoch-window range check; then `max` is dragged up if
needed, the new `min` is stored, and the value setter is re-invoked if the
current value falls below the new minimum. -/
def setMin (today : ℤ) (s : DateInputState) (v : DateArg) :
    Except (DIErr × DateInputState) (DateInputState × List ℕ) :=
  match (match v with
         | .null => Except.ok MIN_DATE
         | _ => convertDate today v true) with
  | .error e => Except.error (e, s)
  | .ok m =>
    let s1 := if s.max < m then { s with max := m } else s
    let s2 := { s1 with min := m }
    if s2.value < m then Except.ok (applyValue s2 m)
    else Except.ok (s2, [])

/-- The `DateInput.max` setter, symmetric to `setMin`. -/
def setMax (today : ℤ) (s : DateInputState) (v : DateArg) :
    Except (DIErr × DateInputState) (DateInputState × List ℕ) :=
  match (match v with
         | .null => Except.ok MAX_DATE
         | _ => convertDate today v true) with
  | .error e => Except.error (e, s)
  | .ok m =>
    let s1 := if m < s.min then { s with min := m } else s
    let s2 := { s1 with max := m }
    if m < s2.value then Except.ok (applyValue s2 m)
    else Except.ok (s2, [])

/-- `DateInput.__init__`: install the wrapped `None` handler, set `min`,
`max`, then `value`, and only then install the caller's handler `h`.
`s0` is the arbitrary initial backend state. -/
def construct (today : ℤ) (s0 : DateInputState) (value mn mx : DateArg)
    (h : ℕ) : Except (DIErr × DateInputState) (DateInputState × List ℕ) :=
  match setMin today { s0 with handler := 0 } mn with
  | .error e => Except.error e
  | .ok (s1, f1) =>
    match setMax today s1 mx with
    | .error e => Except.error e
    | .ok (s2, f2) =>
      match setValue today s2 value with
      | .error e => Except.error e
      | .ok (s3, f3) => Except.ok ({ s3 with handler := h }, f1 ++ f2 ++ f3)

/-- The range invariant of a `DateInput`. -/
def Inv (s : DateInputState) : Prop := s.min ≤ s.value ∧ s.value ≤ s.max

instance (s : DateInputState) : Decidable (Inv s) := by
  unfold Inv; infer_instance

end DateInput

/-! ## Slider (`slider.py`) -/

/-- Errors raised by the `Slider` controller (`ValueError`). -/
inductive SlErr where
  | valueError : SlErr
deriving DecidableEq

/-- The observable state of a `Slider`: the backend-stored `value`,
`min`, `max` and `tick_count`, plus the identity of the installed
`on_change` handler (`0` = the wrapped `None` no-op handler). -/
structure SliderState where
  value : ℚ
  min : ℚ
  max : ℚ
  tick_count : Option ℤ
  handler : ℕ
deriving DecidableEq

namespace Slider

/-- `Slider.tick_step`: `None` if continuous or `max == min`, else
`(max - min) / (tick_count - 1)`.  (With `tick_count = 1` Python would
raise `ZeroDivisionError`; that state is unreachable because the
`tick_count` setter requires at least 2.) -/
def tickStep (s : SliderState) : Option ℚ :=
  match s.tick_count with
  | none => none
  | some n => if s.max = s.min then none else some ((s.max - s.min) / ((n : ℚ) - 1))

/-- `Slider._round_value`: round to the nearest tick when `tick_step` is
defined. -/
def roundValue (s : SliderState) (v : ℚ) : ℚ :=
  match tickStep s with
  | none => v
  | some step => s.min + (pyRound ((v - s.min) / step) : ℚ) * step

/-- `Slider.tick_value` getter: `round((value - min) / tick_step) + 1`
when both `tick_count` and `tick_step` are defined, else `None`. -/
def tickValue (s : SliderState) : Option ℤ :=
  match s.tick_count, tickStep s with
  | some _, some step => some (pyRound ((s.value - s.min) / step) + 1)
  | _, _ => none

/-- The `Slider.value` setter: clip to `[min, max]`, then within a
programmatic-change scope push the rounded value (`_set_value`); the saved
handler is invoked once iff the observable value changed. -/
def setValue (s : SliderState) (v : ℚ) : SliderState × List ℕ :=
  let v := if v < s.min then s.min else if s.max < v then s.max else v
  let s' := { s with value := roundValue s v }
  (s', if s'.value = s.value then [] else [s.handler])

/-- The `Slider.min` setter: within a programmatic-change scope drag `max`
up if needed, store the new `min`, then `_set_value` on the old value
clipped to the new range (re-rounding against the new tick positions). -/
def setMin (s : SliderState) (m : ℚ) : SliderState × List ℕ :=
  let mn := m
  let mx := if s.max < mn then mn else s.max
  let s1 := { s with min := mn, max := mx }
  let s2 := { s1 with value := roundValue s1 (Max.max mn (Min.min mx s.value)) }
  (s2, if s2.value = s.value then [] else [s.handler])

/-- The `Slider.max` setter, symmetric to `setMin`. -/
def setMax (s : SliderState) (m : ℚ) : SliderState × List ℕ :=
  let mx := m
  let mn := if mx < s.min then mx else s.min
  let s1 := { s with min := mn, max := mx }
  let s2 := { s1 with value := roundValue s1 (Max.max mn (Min.min mx s.value)) }
  (s2, if s2.value = s.value then [] else [s.handler])

/-- The body of the `Slider.tick_count` setter after validation: within a
programmatic-change scope push the tick count, then re-run the full
`value` setter on the old value.  The inner `value` setter opens a nested
scope while the outer scope has the no-op handler `0` installed, so any
inner firing hits the no-op handler. -/
def applyTickCount (s : SliderState) (tc : Option ℤ) : SliderState × List ℕ :=
  let r := setValue { s with tick_count := tc, handler := 0 } s.value
  let s3 := { r.1 with handler := s.handler }
  (s3, r.2 ++ (if s3.value = s.value then [] else [s.handler]))

/-- The `Slider.tick_count` setter: `ValueError` if the count is below 2,
otherwise `applyTickCount`. -/
def setTickCount (s : SliderState) (tc : Option ℤ) :
    Except (SlErr × SliderState) (SliderState × List ℕ) :=
  match tc with
  | some n =>
    if n < 2 then Except.error (SlErr.valueError, s)
    else Except.ok (applyTickCount s (some n))
  | none => Except.ok (applyTickCount s none)

/-- The `Slider.tick_value` setter: raises `ValueError` when continuous
and given a tick, or when discrete and the tick (or `tick_step`) is
`None`; otherwise sets `value = min + (tick_value - 1) * tick_step`. -/
def setTickValue (s : SliderState) (tv : Option ℤ) :
    Except (SlErr × SliderState) (SliderState × List ℕ) :=
  match s.tick_count with
  | none =>
    match tv with
    | some _ => Except.error (SlErr.valueError, s)
    | none => Except.ok (s, [])
  | some _ =>
    match tv, tickStep s with
    | none, _ => Except.error (SlErr.valueError, s)
    | some _, none => Except.error (SlErr.valueError, s)
    | some t, some step => Except.ok (setValue s (s.min + ((t : ℚ) - 1) * step))

/-- `Slider.__init__`: install the wrapped `None` handler, set `min`,
`max`, `tick_count`, then `value` (defaulting to the midpoint of the
`min`/`max` arguments), and only then install the caller's handler `h`.
`s0` is the arbitrary initial backend state.  (The `enabled` flag and the
press/release handlers play no role in the embedded logic.) -/
def construct (s0 : SliderState) (value : Option ℚ) (mn mx : ℚ)
    (tc : Option ℤ) (h : ℕ) :
    Except (SlErr × SliderState) (SliderState × List ℕ) :=
  match setTickCount (setMax (setMin { s0 with handler := 0 } mn).1 mx).1 tc with
  | .error e => Except.error e
  | .ok (s3, f3) =>
    Except.ok
      ({ (setValue s3 (match value with
            | none => (mn + mx) / 2
            | some v => v)).1 with handler := h },
       (setMin { s0 with handler := 0 } mn).2 ++
         (setMax (setMin { s0 with handler := 0 } mn).1 mx).2 ++ f3 ++
         (setValue s3 (match value with
            | none => (mn + mx) / 2
            | some v => v)).2)

/-- Well-formedness maintained by the controller: the range is ordered and
any tick count is at least 2. -/
def WF (s : SliderState) : Prop :=
  s.min ≤ s.max ∧ ∀ n, s.tick_count = some n → 2 ≤ n

/-- The range invariant of a `Slider`. -/
def Inv (s : SliderState) : Prop := s.min ≤ s.value ∧ s.value ≤ s.max

/-- In discrete mode with a defined step, the value sits exactly on a
tick. -/
def OnTick (s : SliderState) : Prop :=
  ∀ step, tickStep s = some step → ∃ k : ℤ, s.value = s.min + (k : ℚ) * step

/-- All state predicates maintained by the controller operations. -/
def Good (s : SliderState) : Prop := WF s ∧ Inv s ∧ OnTick s

/-- States reachable through the public programmatic interface of the
`Slider` controller, starting from construction over a fresh (continuous)
backend. -/
inductive Reach : SliderState → Prop where
  | init (s0 : SliderState) (hs0 : s0.tick_count = none) (value : Option ℚ)
      (mn mx : ℚ) (tc : Option ℤ) (h : ℕ) (s : SliderState) (f : List ℕ)
      (hok : construct s0 value mn mx tc h = Except.ok (s, f)) : Reach s
  | value (s : SliderState) (v : ℚ) : Reach s → Reach (setValue s v).1
  | minSet (s : SliderState) (m : ℚ) : Reach s → Reach (setMin s m).1
  | maxSet (s : SliderState) (m : ℚ) : Reach s → Reach (setMax s m).1
  | tickCount (s : SliderState) (tc : Option ℤ) (s' : SliderState)
      (f : List ℕ) : Reach s → setTickCount s tc = Except.ok (s', f) →
      Reach s'
  | tickValueSet (s : SliderState) (tv : Option ℤ) (s' : SliderState)
      (f : List ℕ) : Reach s → setTickValue s tv = Except.ok (s', f) →
      Reach s'
  | handlerSet (s : SliderState) (h : ℕ) : Reach s →
      Reach { s with handler := h }

end Slider

/-! ## The integer-range adapter (`IntSliderImpl`) -/

/-- The state of `IntSliderImpl`: the cached logical `value`, `min` and
`max`, the `discrete` flag, and the native widget's integer position,
integer maximum and tick visibility. -/
structure IntSliderState where
  value : ℚ
  min : ℚ
  max : ℚ
  discrete : Bool
  int_value : ℤ
  int_max : ℤ
  ticks_visible : Bool
deriving DecidableEq

namespace IntSlider

/-- `IntSliderImpl.CONTINUOUS_MAX`. -/
def CONTINUOUS_MAX : ℤ := 10000

/-- `IntSliderImpl.set_value`: push the proportionally mapped integer
position to the native widget, then cache the original value verbatim. -/
def set_value (st : IntSliderState) (v : ℚ) : IntSliderState :=
  let span := st.max - st.min
  let st := { st with
    int_value := if span = 0 then 0
                 else pyRound ((v - st.min) / span * (st.int_max : ℚ)) }
  { st with value := v }

/-- `IntSliderImpl.set_min`: only updates the cached minimum. -/
def set_min (st : IntSliderState) (v : ℚ) : IntSliderState :=
  { st with min := v }

/-- `IntSliderImpl.set_max`: only updates the cached maximum. -/
def set_max (st : IntSliderState) (v : ℚ) : IntSliderState :=
  { st with max := v }

/-- `IntSliderImpl.set_tick_count`: switch between continuous mode
(`native_max = CONTINUOUS_MAX`) and discrete mode
(`native_max = tick_count - 1`), updating tick visibility. -/
def set_tick_count (st : IntSliderState) (tc : Option ℤ) : IntSliderState :=
  match tc with
  | none =>
    let st := { st with discrete := false, int_max := CONTINUOUS_MAX }
    { st with ticks_visible := st.discrete }
  | some n =>
    let st := { st with discrete := true, int_max := n - 1 }
    { st with ticks_visible := st.discrete }

/-- The adapter invariant claimed by the spec: the native integer position
is the proportional mapping of the logical value onto `[0, native_max]`,
or `0` when the logical span is zero. -/
def Inv (st : IntSliderState) : Prop :=
  st.int_value =
    if st.max - st.min = 0 then 0
    else pyRound ((st.value - st.min) / (st.max - st.min) * (st.int_max : ℚ))

instance (st : IntSliderState) : Decidable (Inv st) := by
  unfold Inv; infer_instance

end IntSlider

/-! ## Lemmas about the Slider controller -/

namespace Slider

theorem setValue_fst (s : SliderState) (v : ℚ) :
    (setValue s v).1 = { s with
      value := roundValue s
        (if v < s.min then s.min else if s.max < v then s.max else v) } := rfl

theorem setMin_fst (s : SliderState) (m : ℚ) :
    (setMin s m).1 = { s with
      min := m
      max := if s.max < m then m else s.max
      value := roundValue { s with
          min := m
          max := if s.max < m then m else s.max }
        (Max.max m (Min.min (if s.max < m then m else s.max) s.value)) } := rfl

theorem setMax_fst (s : SliderState) (m : ℚ) :
    (setMax s m).1 = { s with
      min := if m < s.min then m else s.min
      max := m
      value := roundValue { s with
          min := if m < s.min then m else s.min
          max := m }
        (Max.max (if m < s.min then m else s.min) (Min.min m s.value)) } := rfl

theorem applyTickCount_fst (s : SliderState) (tc : Option ℤ) :
    (applyTickCount s tc).1 =
      { (setValue { s with tick_count := tc, handler := 0 } s.value).1 with
        handler := s.handler } := rfl

theorem tickStep_eq_some {s : SliderState} {step : ℚ}
    (h : tickStep s = some step) :
    ∃ n : ℤ, s.tick_count = some n ∧ s.max ≠ s.min ∧
      step = (s.max - s.min) / ((n : ℚ) - 1) := by
  unfold tickStep at h
  cases hc : s.tick_count with
  | none => rw [hc] at h; simp at h
  | some n =>
    rw [hc] at h
    by_cases he : s.max = s.min
    · simp [he] at h
    · simp only [if_neg he, Option.some.injEq] at h
      exact ⟨n, rfl, he, h.symm⟩

theorem roundValue_bounds {s : SliderState} (hmm : s.min ≤ s.max)
    (htc : ∀ n, s.tick_count = some n → 2 ≤ n) {v : ℚ}
    (h1 : s.min ≤ v) (h2 : v ≤ s.max) :
    s.min ≤ roundValue s v ∧ roundValue s v ≤ s.max := by
  unfold roundValue
  cases hts : tickStep s with
  | none => exact ⟨h1, h2⟩
  | some step =>
    obtain ⟨n, hn, hne, hstep⟩ := tickStep_eq_some hts
    have hn2 : (2 : ℤ) ≤ n := htc n hn
    have hlt : s.min < s.max := lt_of_le_of_ne hmm (Ne.symm hne)
    have hn1 : (1 : ℚ) ≤ (n : ℚ) - 1 := by
      have : (2 : ℚ) ≤ (n : ℚ) := by exact_mod_cast hn2
      linarith
    have hstep_pos : 0 < step := by
      rw [hstep]
      exact div_pos (by linarith) (by linarith)
    have hmul : ((n : ℚ) - 1) * step = s.max - s.min := by
      rw [hstep]
      field_simp
    have hq0 : 0 ≤ (v - s.min) / step :=
      div_nonneg (by linarith) hstep_pos.le
    have hqn : (v - s.min) / step ≤ (n : ℚ) - 1 := by
      rw [div_le_iff₀ hstep_pos]
      linarith
    have hr0 : 0 ≤ pyRound ((v - s.min) / step) := pyRound_nonneg hq0
    have hrn : pyRound ((v - s.min) / step) ≤ n - 1 :=
      pyRound_le (by push_cast; linarith)
    have hc0 : (0 : ℚ) ≤ (pyRound ((v - s.min) / step) : ℚ) := by
      exact_mod_cast hr0
    have hcn : (pyRound ((v - s.min) / step) : ℚ) ≤ (n : ℚ) - 1 := by
      exact_mod_cast hrn
    constructor
    · nlinarith
    · nlinarith

theorem roundValue_onTick {s : SliderState} (v : ℚ) {step : ℚ}
    (hts : tickStep s = some step) :
    ∃ k : ℤ, roundValue s v = s.min + (k : ℚ) * step := by
  unfold roundValue
  rw [hts]
  exact ⟨_, rfl⟩

theorem good_value_update (s : SliderState) (hmm : s.min ≤ s.max)
    (htc : ∀ n, s.tick_count = some n → 2 ≤ n) (c : ℚ)
    (h1 : s.min ≤ c) (h2 : c ≤ s.max) :
    Good { s with value := roundValue s c } := by
  refine ⟨⟨hmm, htc⟩, roundValue_bounds hmm htc h1 h2, ?_⟩
  intro step hstep
  exact roundValue_onTick c hstep

theorem setValue_good (s : SliderState) (hW : WF s) (v : ℚ) :
    Good (setValue s v).1 := by
  obtain ⟨hmm, htc⟩ := hW
  rw [setValue_fst]
  apply good_value_update s hmm htc
  · split_ifs <;> linarith
  · split_ifs <;> linarith

theorem setMin_good (s : SliderState)
    (htc : ∀ n, s.tick_count = some n → 2 ≤ n) (m : ℚ) :
    Good (setMin s m).1 := by
  rw [setMin_fst]
  have hmx : m ≤ (if s.max < m then m else s.max) := by
    split_ifs <;> linarith
  exact good_value_update
    { s with min := m, max := if s.max < m then m else s.max }
    hmx htc _ (le_max_left _ _) (max_le hmx (min_le_left _ _))

theorem setMax_good (s : SliderState)
    (htc : ∀ n, s.tick_count = some n → 2 ≤ n) (m : ℚ) :
    Good (setMax s m).1 := by
  rw [setMax_fst]
  have hmn : (if m < s.min then m else s.min) ≤ m := by
    split_ifs <;> linarith
  exact good_value_update
    { s with min := if m < s.min then m else s.min, max := m }
    hmn htc _ (le_max_left _ _) (max_le hmn (min_le_left _ _))

theorem applyTickCount_good (s : SliderState) (hmm : s.min ≤ s.max)
    (tc : Option ℤ) (htc : ∀ n, tc = some n → 2 ≤ n) :
    Good (applyTickCount s tc).1 := by
  rw [applyTickCount_fst]
  have h1 : Good (setValue { s with tick_count := tc, handler := 0 } s.value).1 :=
    setValue_good { s with tick_count := tc, handler := 0 }
      ⟨hmm, fun n hn => htc n hn⟩ s.value
  obtain ⟨⟨ha, hb⟩, ⟨hc, hd⟩, he⟩ := h1
  exact ⟨⟨ha, hb⟩, ⟨hc, hd⟩, he⟩

theorem setTickCount_none (s : SliderState) :
    setTickCount s none = Except.ok (applyTickCount s none) := rfl

theorem setTickCount_some (s : SliderState) (n : ℤ) :
    setTickCount s (some n) =
      if n < 2 then Except.error (SlErr.valueError, s)
      else Except.ok (applyTickCount s (some n)) := rfl

theorem setTickCount_good {s : SliderState} (hmm : s.min ≤ s.max)
    {tc : Option ℤ} {s' : SliderState} {f : List ℕ}
    (h : setTickCount s tc = Except.ok (s', f)) : Good s' := by
  cases tc with
  | none =>
    rw [setTickCount_none] at h
    simp only [Except.ok.injEq] at h
    have hs' : s' = (applyTickCount s none).1 := by rw [h]
    rw [hs']
    exact applyTickCount_good s hmm none (by simp)
  | some n =>
    rw [setTickCount_some] at h
    by_cases hn : n < 2
    · rw [if_pos hn] at h; exact absurd h (by simp)
    · rw [if_neg hn] at h
      simp only [Except.ok.injEq] at h
      have hs' : s' = (applyTickCount s (some n)).1 := by rw [h]
      rw [hs']
      apply applyTickCount_good s hmm
      intro k hk
      cases hk
      omega

theorem setTickValue_good {s : SliderState} (hW : WF s)
    {tv : Option ℤ} {s' : SliderState} {f : List ℕ}
    (h : setTickValue s tv = Except.ok (s', f)) (hInv : Inv s)
    (hT : OnTick s) : Good s' := by
  unfold setTickValue at h
  cases hc : s.tick_count with
  | none =>
    rw [hc] at h
    cases tv with
    | some t => exact absurd h (by simp)
    | none =>
      simp only [Except.ok.injEq] at h
      have hss : s = s' := congrArg Prod.fst h
      rw [← hss]
      exact ⟨hW, hInv, hT⟩
  | some n =>
    rw [hc] at h
    cases tv with
    | none => exact absurd h (by simp)
    | some t =>
      cases hts : tickStep s with
      | none => rw [hts] at h; exact absurd h (by simp)
      | some step =>
        rw [hts] at h
        simp only [Except.ok.injEq] at h
        have hs' : s' = (setValue s (s.min + ((t : ℚ) - 1) * step)).1 := by rw [h]
        rw [hs']
        exact setValue_good s hW _

theorem good_handler (s : SliderState) (h : ℕ) (hg : Good s) :
    Good { s with handler := h } := by
  obtain ⟨⟨ha, hb⟩, ⟨hc, hd⟩, he⟩ := hg
  exact ⟨⟨ha, hb⟩, ⟨hc, hd⟩, he⟩

theorem construct_good {s0 : SliderState} (hs0 : s0.tick_count = none)
    {value : Option ℚ} {mn mx : ℚ} {tc : Option ℤ} {h : ℕ}
    {s : SliderState} {f : List ℕ}
    (hok : construct s0 value mn mx tc h = Except.ok (s, f)) : Good s := by
  unfold construct at hok
  have htc1 : ∀ n, ({ s0 with handler := 0 } : SliderState).tick_count = some n → 2 ≤ n := by
    intro n hn
    rw [show ({ s0 with handler := 0 } : SliderState).tick_count = s0.tick_count from rfl,
      hs0] at hn
    cases hn
  have h1 : Good (setMin { s0 with handler := 0 } mn).1 := setMin_good _ htc1 mn
  have h2 : Good (setMax (setMin { s0 with handler := 0 } mn).1 mx).1 :=
    setMax_good _ h1.1.2 mx
  revert hok
  cases htk : setTickCount (setMax (setMin { s0 with handler := 0 } mn).1 mx).1 tc with
  | error e => intro hok; exact absurd hok (by simp)
  | ok r =>
    obtain ⟨s3, f3⟩ := r
    have h3 : Good s3 := setTickCount_good h2.1.1 htk
    intro hok
    generalize (match value with
        | none => (mn + mx) / 2 | some v => v) = v0 at hok
    have h4 : Good (setValue s3 v0).1 := setValue_good s3 h3.1 v0
    injection hok with hok1
    injection hok1 with hs hf
    rw [← hs]
    exact good_handler _ h h4

theorem reach_good {s : SliderState} (h : Reach s) : Good s := by
  induction h with
  | init s0 hs0 value mn mx tc hh s f hok => exact construct_good hs0 hok
  | value s v _ ih => exact setValue_good s ih.1 v
  | minSet s m _ ih => exact setMin_good s ih.1.2 m
  | maxSet s m _ ih => exact setMax_good s ih.1.2 m
  | tickCount s tc s' f _ hok ih => exact setTickCount_good ih.1.1 hok
  | tickValueSet s tv s' f _ hok ih =>
    exact setTickValue_good ih.1 hok ih.2.1 ih.2.2
  | handlerSet s hh _ ih => exact good_handler s hh ih

end Slider

/-! ## Lemmas about the DateInput controller -/

theorem convertChecked_false (d : ℤ) : convertChecked d false = Except.ok d := rfl

theorem convertChecked_true_ok {d : ℤ} (h1 : MIN_DATE ≤ d) (h2 : d ≤ MAX_DATE) :
    convertChecked d true = Except.ok d := by
  unfold convertChecked
  simp [not_lt.mpr h1, not_lt.mpr h2]

namespace DateInput

theorem applyValue_fst (s : DateInputState) (d : ℤ) :
    (applyValue s d).1 = { s with
      value := if d < s.min then s.min else if s.max < d then s.max else d } := rfl

theorem applyValue_snd (s : DateInputState) (d : ℤ) :
    (applyValue s d).2 =
      if (if d < s.min then s.min else if s.max < d then s.max else d) = s.value
      then [] else [s.handler] := rfl

theorem applyValue_inv (s : DateInputState) (hmm : s.min ≤ s.max) (d : ℤ) :
    Inv (applyValue s d).1 := by
  rw [applyValue_fst]
  show s.min ≤ (if d < s.min then s.min else if s.max < d then s.max else d) ∧
    (if d < s.min then s.min else if s.max < d then s.max else d) ≤ s.max
  constructor <;> split_ifs <;> omega

theorem setValue_ok {today : ℤ} {s : DateInputState} {a : DateArg}
    {s' : DateInputState} {f : List ℕ}
    (h : setValue today s a = Except.ok (s', f)) :
    ∃ d, s' = (applyValue s d).1 ∧ f = (applyValue s d).2 := by
  unfold setValue at h
  cases hc : convertDate today a false with
  | error e => rw [hc] at h; exact absurd h (by simp)
  | ok d =>
    rw [hc] at h
    simp only [Except.ok.injEq] at h
    exact ⟨d, by rw [h], by rw [h]⟩

theorem setValue_inv {today : ℤ} {s : DateInputState} {a : DateArg}
    {s' : DateInputState} {f : List ℕ} (hInv : Inv s)
    (h : setValue today s a = Except.ok (s', f)) : Inv s' := by
  obtain ⟨d, hs, _⟩ := setValue_ok h
  rw [hs]
  exact applyValue_inv s (le_trans hInv.1 hInv.2) d

theorem setMin_ok {today : ℤ} {s : DateInputState} {a : DateArg}
    {s' : DateInputState} {f : List ℕ}
    (h : setMin today s a = Except.ok (s', f)) :
    ∃ m, (match a with
          | .null => Except.ok MIN_DATE
          | _ => convertDate today a true) = Except.ok m ∧
      s' = { s with
        min := m
        max := if s.max < m then m else s.max
        value := if s.value < m then m else s.value } ∧
      f = (if s.value < m then [s.handler] else []) := by
  unfold setMin at h
  cases hc : (match a with
              | .null => Except.ok MIN_DATE
              | _ => convertDate today a true) with
  | error e => rw [hc] at h; exact absurd h (by simp)
  | ok m =>
    rw [hc] at h
    refine ⟨m, rfl, ?_⟩
    have hnm : ¬ (m < m) := lt_irrefl m
    by_cases hmx : s.max < m <;> by_cases hv : s.value < m <;>
      simp only [hmx, hv, if_true, if_false, ite_true, ite_false, applyValue,
        Except.ok.injEq, Prod.mk.injEq] at h <;>
      obtain ⟨hs, hf⟩ := h <;>
      constructor
    · rw [← hs]; simp [hnm, hmx, hv]
    · rw [← hf]
      have hne : ¬ (m = s.value) := by omega
      simp [hne, hv]
    · rw [← hs]; simp [hmx, hv]
    · rw [← hf]; simp [hv]
    · rw [← hs]; simp [hnm, hmx, hv]
    · rw [← hf]
      have hne : ¬ (m = s.value) := by omega
      simp [hne, hv]
    · rw [← hs]; simp [hmx, hv]
    · rw [← hf]; simp [hv]

theorem setMax_ok {today : ℤ} {s : DateInputState} {a : DateArg}
    {s' : DateInputState} {f : List ℕ}
    (h : setMax today s a = Except.ok (s', f)) :
    ∃ m, (match a with
          | .null => Except.ok MAX_DATE
          | _ => convertDate today a true) = Except.ok m ∧
      s' = { s with
        min := if m < s.min then m else s.min
        max := m
        value := if m < s.value then m else s.value } ∧
      f = (if m < s.value then [s.handler] else []) := by
  unfold setMax at h
  cases hc : (match a with
              | .null => Except.ok MAX_DATE
              | _ => convertDate today a true) with
  | error e => rw [hc] at h; exact absurd h (by simp)
  | ok m =>
    rw [hc] at h
    refine ⟨m, rfl, ?_⟩
    have hnm : ¬ (m < m) := lt_irrefl m
    by_cases hmn : m < s.min <;> by_cases hv : m < s.value <;>
      simp only [hmn, hv, if_true, if_false, ite_true, ite_false, applyValue,
        Except.ok.injEq, Prod.mk.injEq] at h <;>
      obtain ⟨hs, hf⟩ := h <;>
      constructor
    · rw [← hs]; simp [hnm, hmn, hv]
    · rw [← hf]
      have hne : ¬ (m = s.value) := by omega
      simp [hne, hv]
    · rw [← hs]; simp [hmn, hv]
    · rw [← hf]; simp [hv]
    · rw [← hs]; simp [hnm, hmn, hv]
    · rw [← hf]
      have hne : ¬ (m = s.value) := by omega
      simp [hne, hv]
    · rw [← hs]; simp [hmn, hv]
    · rw [← hf]; simp [hv]

theorem setMin_inv {today : ℤ} {s : DateInputState} {a : DateArg}
    {s' : DateInputState} {f : List ℕ} (hInv : Inv s)
    (h : setMin today s a = Except.ok (s', f)) : Inv s' := by
  obtain ⟨hiv1, hiv2⟩ := hInv
  obtain ⟨m, _, hs, _⟩ := setMin_ok h
  rw [hs]
  show m ≤ (if s.value < m then m else s.value) ∧
    (if s.value < m then m else s.value) ≤ (if s.max < m then m else s.max)
  constructor <;> split_ifs <;> omega

theorem setMax_inv {today : ℤ} {s : DateInputState} {a : DateArg}
    {s' : DateInputState} {f : List ℕ} (hInv : Inv s)
    (h : setMax today s a = Except.ok (s', f)) : Inv s' := by
  obtain ⟨hiv1, hiv2⟩ := hInv
  obtain ⟨m, _, hs, _⟩ := setMax_ok h
  rw [hs]
  show (if m < s.min then m else s.min) ≤ (if m < s.value then m else s.value) ∧
    (if m < s.value then m else s.value) ≤ m
  constructor <;> split_ifs <;> omega

theorem setValue_fires {today : ℤ} {s : DateInputState} {a : DateArg}
    {s' : DateInputState} {f : List ℕ}
    (h : setValue today s a = Except.ok (s', f)) :
    s'.handler = s.handler ∧ ∀ x ∈ f, x = s.handler := by
  obtain ⟨d, hs, hf⟩ := setValue_ok h
  refine ⟨by rw [hs, applyValue_fst], ?_⟩
  rw [hf, applyValue_snd]
  split_ifs <;> simp

theorem setMin_fires {today : ℤ} {s : DateInputState} {a : DateArg}
    {s' : DateInputState} {f : List ℕ}
    (h : setMin today s a = Except.ok (s', f)) :
    s'.handler = s.handler ∧ ∀ x ∈ f, x = s.handler := by
  obtain ⟨m, _, hs, hf⟩ := setMin_ok h
  refine ⟨by rw [hs], ?_⟩
  rw [hf]
  split_ifs <;> simp

theorem setMax_fires {today : ℤ} {s : DateInputState} {a : DateArg}
    {s' : DateInputState} {f : List ℕ}
    (h : setMax today s a = Except.ok (s', f)) :
    s'.handler = s.handler ∧ ∀ x ∈ f, x = s.handler := by
  obtain ⟨m, _, hs, hf⟩ := setMax_ok h
  refine ⟨by rw [hs], ?_⟩
  rw [hf]
  split_ifs <;> simp

/-- Forward evaluation of the `min` setter once the conversion result is
known. -/
theorem setMin_eq_of_conv {today : ℤ} {s : DateInputState} {a : DateArg} {m : ℤ}
    (hc : (match a with
           | .null => Except.ok MIN_DATE
           | _ => convertDate today a true) = Except.ok m) :
    setMin today s a = Except.ok
      ({ s with
          min := m
          max := if s.max < m then m else s.max
          value := if s.value < m then m else s.value },
       if s.value < m then [s.handler] else []) := by
  unfold setMin
  rw [hc]
  have hnm : ¬ (m < m) := lt_irrefl m
  by_cases hmx : s.max < m <;> by_cases hv : s.value < m <;>
    first
      | (have hne : ¬ (m = s.value) := by omega
         simp [applyValue, hnm, hmx, hv, hne])
      | simp [applyValue, hnm, hmx, hv]

/-- Forward evaluation of the `max` setter once the conversion result is
known. -/
theorem setMax_eq_of_conv {today : ℤ} {s : DateInputState} {a : DateArg} {m : ℤ}
    (hc : (match a with
           | .null => Except.ok MAX_DATE
           | _ => convertDate today a true) = Except.ok m) :
    setMax today s a = Except.ok
      ({ s with
          min := if m < s.min then m else s.min
          max := m
          value := if m < s.value then m else s.value },
       if m < s.value then [s.handler] else []) := by
  unfold setMax
  rw [hc]
  have hnm : ¬ (m < m) := lt_irrefl m
  by_cases hmn : m < s.min <;> by_cases hv : m < s.value <;>
    first
      | (have hne : ¬ (m = s.value) := by omega
         simp [applyValue, hnm, hmn, hv, hne])
      | simp [applyValue, hnm, hmn, hv]

theorem setValue_eq_of_conv {today : ℤ} {s : DateInputState} {a : DateArg}
    {d : ℤ} (hc : convertDate today a false = Except.ok d) :
    setValue today s a = Except.ok (applyValue s d) := by
  unfold setValue
  rw [hc]

/-- During construction every fired handler is the wrapped `None` no-op
(identity `0`); the caller's handler is installed only afterwards. -/
theorem dateinput_construct_fires {today : ℤ} {s0 : DateInputState} {v mn mx : DateArg}
    {h : ℕ} {s : DateInputState} {f : List ℕ}
    (hok : construct today s0 v mn mx h = Except.ok (s, f)) :
    s.handler = h ∧ ∀ x ∈ f, x = 0 := by
  unfold construct at hok
  cases h1 : setMin today { s0 with handler := 0 } mn with
  | error e => rw [h1] at hok; exact absurd hok (by simp)
  | ok r1 =>
    obtain ⟨s1, f1⟩ := r1
    rw [h1] at hok
    dsimp only at hok
    have hf1 := setMin_fires h1
    cases h2 : setMax today s1 mx with
    | error e => rw [h2] at hok; exact absurd hok (by simp)
    | ok r2 =>
      obtain ⟨s2, f2⟩ := r2
      rw [h2] at hok
      dsimp only at hok
      have hf2 := setMax_fires h2
      cases h3 : setValue today s2 v with
      | error e => rw [h3] at hok; exact absurd hok (by simp)
      | ok r3 =>
        obtain ⟨s3, f3⟩ := r3
        rw [h3] at hok
        dsimp only at hok
        have hf3 := setValue_fires h3
        simp only [Except.ok.injEq, Prod.mk.injEq] at hok
        obtain ⟨hs, hf⟩ := hok
        have hh0 : ({ s0 with handler := 0 } : DateInputState).handler = 0 := rfl
        have hh1 : s1.handler = 0 := by rw [hf1.1, hh0]
        have hh2 : s2.handler = 0 := by rw [hf2.1, hh1]
        constructor
        · rw [← hs]
        · intro x hx
          rw [← hf] at hx
          simp only [List.mem_append] at hx
          rcases hx with (hx | hx) | hx
          · rw [hf1.2 x hx, hh0]
          · rw [hf2.2 x hx, hh1]
          · rw [hf3.2 x hx, hh2]

end DateInput

/-! ## Fires and handler lemmas for the Slider controller -/

namespace Slider

theorem setValue_snd (s : SliderState) (v : ℚ) :
    (setValue s v).2 =
      if (setValue s v).1.value = s.value then [] else [s.handler] := rfl

theorem setValue_handler (s : SliderState) (v : ℚ) :
    (setValue s v).1.handler = s.handler := rfl

theorem setMin_snd (s : SliderState) (m : ℚ) :
    (setMin s m).2 =
      if (setMin s m).1.value = s.value then [] else [s.handler] := rfl

theorem setMin_handler (s : SliderState) (m : ℚ) :
    (setMin s m).1.handler = s.handler := rfl

theorem setMin_min (s : SliderState) (m : ℚ) : (setMin s m).1.min = m := rfl

theorem setMin_max (s : SliderState) (m : ℚ) :
    (setMin s m).1.max = if s.max < m then m else s.max := rfl

theorem setMax_snd (s : SliderState) (m : ℚ) :
    (setMax s m).2 =
      if (setMax s m).1.value = s.value then [] else [s.handler] := rfl

theorem setMax_handler (s : SliderState) (m : ℚ) :
    (setMax s m).1.handler = s.handler := rfl

theorem setMax_min (s : SliderState) (m : ℚ) :
    (setMax s m).1.min = if m < s.min then m else s.min := rfl

theorem setMax_max (s : SliderState) (m : ℚ) : (setMax s m).1.max = m := rfl

theorem applyTickCount_snd (s : SliderState) (tc : Option ℤ) :
    (applyTickCount s tc).2 =
      (setValue { s with tick_count := tc, handler := 0 } s.value).2 ++
        (if (applyTickCount s tc).1.value = s.value then [] else [s.handler]) := rfl

theorem applyTickCount_handler (s : SliderState) (tc : Option ℤ) :
    (applyTickCount s tc).1.handler = s.handler := rfl

theorem setTickCount_ok {s : SliderState} {tc : Option ℤ} {s' : SliderState}
    {f : List ℕ} (h : setTickCount s tc = Except.ok (s', f)) :
    s' = (applyTickCount s tc).1 ∧ f = (applyTickCount s tc).2 ∧
      ∀ n, tc = some n → 2 ≤ n := by
  cases tc with
  | none =>
    rw [setTickCount_none] at h
    simp only [Except.ok.injEq] at h
    exact ⟨by rw [h], by rw [h], by simp⟩
  | some n =>
    rw [setTickCount_some] at h
    by_cases hn : n < 2
    · rw [if_pos hn] at h; exact absurd h (by simp)
    · rw [if_neg hn] at h
      simp only [Except.ok.injEq] at h
      refine ⟨by rw [h], by rw [h], ?_⟩
      intro k hk
      cases hk
      omega

theorem setValue_fires_mem (s : SliderState) (v : ℚ) :
    ∀ x ∈ (setValue s v).2, x = s.handler := by
  rw [setValue_snd]
  split_ifs <;> simp

theorem setMin_fires_mem (s : SliderState) (m : ℚ) :
    ∀ x ∈ (setMin s m).2, x = s.handler := by
  rw [setMin_snd]
  split_ifs <;> simp

theorem setMax_fires_mem (s : SliderState) (m : ℚ) :
    ∀ x ∈ (setMax s m).2, x = s.handler := by
  rw [setMax_snd]
  split_ifs <;> simp

theorem applyTickCount_fires_mem (s : SliderState) (tc : Option ℤ) :
    ∀ x ∈ (applyTickCount s tc).2, x = 0 ∨ x = s.handler := by
  rw [applyTickCount_snd]
  intro x hx
  rcases List.mem_append.mp hx with hx | hx
  · left
    exact setValue_fires_mem { s with tick_count := tc, handler := 0 } s.value x hx
  · right
    revert hx
    split_ifs <;> simp

/-- During `Slider` construction every fired handler is the wrapped `None`
no-op (identity `0`); the caller's handler is installed only afterwards. -/
theorem slider_construct_fires {s0 : SliderState} {value : Option ℚ} {mn mx : ℚ}
    {tc : Option ℤ} {h : ℕ} {s : SliderState} {f : List ℕ}
    (hok : construct s0 value mn mx tc h = Except.ok (s, f)) :
    s.handler = h ∧ ∀ x ∈ f, x = 0 := by
  unfold construct at hok
  revert hok
  cases htk : setTickCount (setMax (setMin { s0 with handler := 0 } mn).1 mx).1 tc with
  | error e => intro hok; exact absurd hok (by simp)
  | ok r =>
    obtain ⟨s3, f3⟩ := r
    intro hok
    generalize (match value with
        | none => (mn + mx) / 2 | some v => v) = v0 at hok
    injection hok with hok1
    injection hok1 with hs hf
    obtain ⟨hs3, hf3, _⟩ := setTickCount_ok htk
    have hhB : (setMax (setMin { s0 with handler := 0 } mn).1 mx).1.handler = 0 := by
      rw [setMax_handler, setMin_handler]
    have hh3 : s3.handler = 0 := by rw [hs3, applyTickCount_handler, hhB]
    constructor
    · rw [← hs]
    · intro x hx
      rw [← hf] at hx
      simp only [List.mem_append] at hx
      rcases hx with ((hx | hx) | hx) | hx
      · have := setMin_fires_mem { s0 with handler := 0 } mn x hx
        simpa using this
      · have := setMax_fires_mem (setMin { s0 with handler := 0 } mn).1 mx x hx
        rw [setMin_handler] at this
        simpa using this
      · rw [hf3] at hx
        rcases applyTickCount_fires_mem _ tc x hx with hx0 | hx0
        · exact hx0
        · rw [hx0, hhB]
      · have := setValue_fires_mem s3 v0 x hx
        rw [hh3] at this
        exact this

end Slider

namespace Slider

instance (s : SliderState) : Decidable (Inv s) := by
  unfold Inv; infer_instance

/-- Rounding the minimum itself is a no-op: the minimum is tick `0`. -/
theorem roundValue_min (s : SliderState) : roundValue s s.min = s.min := by
  unfold roundValue
  cases hts : tickStep s with
  | none => rfl
  | some step =>
    dsimp only
    have h0 : (s.min - s.min) / step = ((0 : ℤ) : ℚ) := by
      rw [sub_self, zero_div, Int.cast_zero]
    rw [h0, pyRound_intCast]
    simp

/-- Rounding the maximum itself is a no-op on a well-formed slider: the
maximum is tick `tick_count - 1`. -/
theorem roundValue_max (s : SliderState) (hW : WF s) :
    roundValue s s.max = s.max := by
  obtain ⟨hmm, htc⟩ := hW
  unfold roundValue
  cases hts : tickStep s with
  | none => rfl
  | some step =>
    dsimp only
    obtain ⟨n, hn, hne, hstep⟩ := tickStep_eq_some hts
    have hn2 : (2 : ℤ) ≤ n := htc n hn
    have hn1 : ((n : ℚ) - 1) ≠ 0 := by
      have h2 : (2 : ℚ) ≤ (n : ℚ) := by exact_mod_cast hn2
      intro hz
      rw [sub_eq_zero] at hz
      rw [hz] at h2
      norm_num at h2
    have hane : s.max - s.min ≠ 0 := sub_ne_zero.mpr hne
    have hq : (s.max - s.min) / step = ((n - 1 : ℤ) : ℚ) := by
      rw [hstep, div_div_eq_mul_div, mul_comm, mul_div_assoc, div_self hane,
        mul_one]
      push_cast
      ring
    have hmul : ((n : ℚ) - 1) * step = s.max - s.min := by
      rw [hstep]
      field_simp
    rw [hq, pyRound_intCast]
    push_cast
    linarith [hmul]

end Slider

/-! ## The claims -/

/-- Claim C1: for every `DateInput` and every `Slider`, after any mutation
of `value`, `min` or `max` (and, for the `Slider`, `tick_count`) that
completes without raising, the invariant `min ≤ value ≤ max` holds on the
widget state. -/
theorem claim_C1_invariant_after_mutation :
    (∀ (today : ℤ) (s : DateInputState) (a : DateArg) (s' : DateInputState)
        (f : List ℕ), DateInput.Inv s →
        DateInput.setValue today s a = Except.ok (s', f) → DateInput.Inv s') ∧
    (∀ (today : ℤ) (s : DateInputState) (a : DateArg) (s' : DateInputState)
        (f : List ℕ), DateInput.Inv s →
        DateInput.setMin today s a = Except.ok (s', f) → DateInput.Inv s') ∧
    (∀ (today : ℤ) (s : DateInputState) (a : DateArg) (s' : DateInputState)
        (f : List ℕ), DateInput.Inv s →
        DateInput.setMax today s a = Except.ok (s', f) → DateInput.Inv s') ∧
    (∀ (s : SliderState) (v : ℚ), Slider.WF s →
        Slider.Inv (Slider.setValue s v).1) ∧
    (∀ (s : SliderState) (m : ℚ), Slider.WF s →
        Slider.Inv (Slider.setMin s m).1) ∧
    (∀ (s : SliderState) (m : ℚ), Slider.WF s →
        Slider.Inv (Slider.setMax s m).1) ∧
    (∀ (s : SliderState) (tc : Option ℤ) (s' : SliderState) (f : List ℕ),
        Slider.WF s → Slider.setTickCount s tc = Except.ok (s', f) →
        Slider.Inv s') :=
  ⟨fun _ _ _ _ _ hi h => DateInput.setValue_inv hi h,
   fun _ _ _ _ _ hi h => DateInput.setMin_inv hi h,
   fun _ _ _ _ _ hi h => DateInput.setMax_inv hi h,
   fun s v hW => (Slider.setValue_good s hW v).2.1,
   fun s m hW => (Slider.setMin_good s hW.2 m).2.1,
   fun s m hW => (Slider.setMax_good s hW.2 m).2.1,
   fun _ _ _ _ hW h => (Slider.setTickCount_good hW.1 h).2.1⟩

/-- Witness for C1 at concrete inputs: a `DateInput` whose assigned value
is clipped to `max`, and a discrete `Slider` value assignment. -/
theorem claim_C1_witness :
    DateInput.Inv ⟨mkDate 2020 12 31, mkDate 2020 1 1, mkDate 2020 12 31, 0⟩ ∧
    Slider.Inv (Slider.setValue ⟨5, 0, 10, some 3, 1⟩ 7).1 := by
  constructor
  · exact claim_C1_invariant_after_mutation.1 0
      ⟨mkDate 2020 6 15, mkDate 2020 1 1, mkDate 2020 12 31, 0⟩
      (DateArg.dateV (mkDate 2050 1 1)) _ [0] (by constructor <;> decide)
      rfl
  · exact claim_C1_invariant_after_mutation.2.2.2.1 ⟨5, 0, 10, some 3, 1⟩ 7
      ⟨by norm_num, fun n hn => by simp at hn; omega⟩

/-- Claim C2: every programmatic compound `Slider` mutation (`value`,
`min`, `max`, `tick_count`) invokes the installed external `on_change`
handler exactly once when the observable value changed, and never when it
did not, regardless of the backend calls performed inside the
programmatic-change scope. -/
theorem claim_C2_on_change_once_iff_changed :
    (∀ (s : SliderState) (v : ℚ), s.handler ≠ 0 →
      (Slider.setValue s v).2.count s.handler =
        if (Slider.setValue s v).1.value ≠ s.value then 1 else 0) ∧
    (∀ (s : SliderState) (m : ℚ), s.handler ≠ 0 →
      (Slider.setMin s m).2.count s.handler =
        if (Slider.setMin s m).1.value ≠ s.value then 1 else 0) ∧
    (∀ (s : SliderState) (m : ℚ), s.handler ≠ 0 →
      (Slider.setMax s m).2.count s.handler =
        if (Slider.setMax s m).1.value ≠ s.value then 1 else 0) ∧
    (∀ (s : SliderState) (tc : Option ℤ) (s' : SliderState) (f : List ℕ),
      s.handler ≠ 0 → Slider.setTickCount s tc = Except.ok (s', f) →
      f.count s.handler = if s'.value ≠ s.value then 1 else 0) := by
  refine ⟨?_, ?_, ?_, ?_⟩
  · intro s v _
    rw [Slider.setValue_snd]
    by_cases hch : (Slider.setValue s v).1.value = s.value <;>
      simp [hch]
  · intro s m _
    rw [Slider.setMin_snd]
    by_cases hch : (Slider.setMin s m).1.value = s.value <;>
      simp [hch]
  · intro s m _
    rw [Slider.setMax_snd]
    by_cases hch : (Slider.setMax s m).1.value = s.value <;>
      simp [hch]
  · intro s tc s' f hne h
    obtain ⟨hs, hf, _⟩ := Slider.setTickCount_ok h
    subst hs
    subst hf
    rw [Slider.applyTickCount_snd, List.count_append]
    have hinner :
        ((Slider.setValue { s with tick_count := tc, handler := 0 }
          s.value).2).count s.handler = 0 := by
      rw [List.count_eq_zero]
      intro hmem
      have h0 := Slider.setValue_fires_mem
        { s with tick_count := tc, handler := 0 } s.value _ hmem
      exact hne h0
    rw [hinner, zero_add]
    by_cases hch : (Slider.applyTickCount s tc).1.value = s.value <;>
      simp [hch]

/-- Witness for C2: a discrete slider whose value assignment changes the
observable value fires the external handler exactly once. -/
theorem claim_C2_witness :
    (Slider.setValue ⟨0, 0, 10, some 3, 2⟩ 7).2.count 2 =
      if (Slider.setValue ⟨0, 0, 10, some 3, 2⟩ 7).1.value ≠
          (⟨0, 0, 10, some 3, 2⟩ : SliderState).value then 1 else 0 :=
  claim_C2_on_change_once_iff_changed.1 ⟨0, 0, 10, some 3, 2⟩ 7 (by decide)

/-- Claim C4: setting `min` strictly above the current `max` drags `max`
up to the new `min` (and symmetrically for `max` below `min`, after which
`min = max`); in the non-conflicting case the other bound is unchanged.
For `DateInput` the assigned date must pass the epoch-window check. -/
theorem claim_C4_bound_dragging :
    (∀ (s : SliderState) (m : ℚ),
      (Slider.setMin s m).1.min = m ∧
      (s.max < m → (Slider.setMin s m).1.max = m) ∧
      (¬ s.max < m → (Slider.setMin s m).1.max = s.max)) ∧
    (∀ (s : SliderState) (m : ℚ),
      (Slider.setMax s m).1.max = m ∧
      (m < s.min → (Slider.setMax s m).1.min = m ∧
        (Slider.setMax s m).1.min = (Slider.setMax s m).1.max) ∧
      (¬ m < s.min → (Slider.setMax s m).1.min = s.min)) ∧
    (∀ (today : ℤ) (s : DateInputState) (m : ℤ),
      MIN_DATE ≤ m → m ≤ MAX_DATE →
      ∃ s' f, DateInput.setMin today s (DateArg.dateV m) = Except.ok (s', f) ∧
        s'.min = m ∧ (s.max < m → s'.max = m) ∧
        (¬ s.max < m → s'.max = s.max)) ∧
    (∀ (today : ℤ) (s : DateInputState) (m : ℤ),
      MIN_DATE ≤ m → m ≤ MAX_DATE →
      ∃ s' f, DateInput.setMax today s (DateArg.dateV m) = Except.ok (s', f) ∧
        s'.max = m ∧ (m < s.min → s'.min = m ∧ s'.min = s'.max) ∧
        (¬ m < s.min → s'.min = s.min)) := by
  refine ⟨?_, ?_, ?_, ?_⟩
  · intro s m
    refine ⟨Slider.setMin_min s m, ?_, ?_⟩ <;> intro h <;>
      rw [Slider.setMin_max] <;> simp [h]
  · intro s m
    refine ⟨Slider.setMax_max s m, ?_, ?_⟩
    · intro h
      rw [Slider.setMax_min, Slider.setMax_max]
      simp [h]
    · intro h
      rw [Slider.setMax_min]
      simp [h]
  · intro today s m h1 h2
    have hc : (match DateArg.dateV m with
        | .null => Except.ok MIN_DATE
        | _ => convertDate today (DateArg.dateV m) true) = Except.ok m :=
      convertChecked_true_ok h1 h2
    refine ⟨_, _, DateInput.setMin_eq_of_conv hc, rfl, ?_, ?_⟩ <;>
      intro h <;> simp [h]
  · intro today s m h1 h2
    have hc : (match DateArg.dateV m with
        | .null => Except.ok MAX_DATE
        | _ => convertDate today (DateArg.dateV m) true) = Except.ok m :=
      convertChecked_true_ok h1 h2
    refine ⟨_, _, DateInput.setMax_eq_of_conv hc, rfl, ?_, ?_⟩ <;>
      intro h <;> simp [h]

/-- Witness for C4: raising a `DateInput` minimum above the current
maximum drags the maximum up with it. -/
theorem claim_C4_witness :
    ∃ s' f, DateInput.setMin 0
        ⟨mkDate 2000 6 1, mkDate 2000 1 1, mkDate 2000 12 31, 0⟩
        (DateArg.dateV (mkDate 2005 1 1)) = Except.ok (s', f) ∧
      s'.min = mkDate 2005 1 1 ∧
      ((⟨mkDate 2000 6 1, mkDate 2000 1 1, mkDate 2000 12 31, 0⟩ :
          DateInputState).max < mkDate 2005 1 1 → s'.max = mkDate 2005 1 1) ∧
      (¬ (⟨mkDate 2000 6 1, mkDate 2000 1 1, mkDate 2000 12 31, 0⟩ :
          DateInputState).max < mkDate 2005 1 1 →
        s'.max = (⟨mkDate 2000 6 1, mkDate 2000 1 1, mkDate 2000 12 31, 0⟩ :
          DateInputState).max) :=
  claim_C4_bound_dragging.2.2.1 0
    ⟨mkDate 2000 6 1, mkDate 2000 1 1, mkDate 2000 12 31, 0⟩
    (mkDate 2005 1 1) (by decide) (by decide)

/-- Claim C6: the value setter stores the clipped input rounded to the
nearest tick (`min + round((v - min) / tick_step) * tick_step`) when
`tick_step` is defined, and the clipped input unchanged otherwise; in
particular `Slider(min=0, max=10, tick_count=3)` has `tick_step = 5.0`,
and setting `value = 7` yields `value = 5.0` and `tick_value = 2`. -/
theorem claim_C6_rounding_rule :
    (∀ (s : SliderState) (v : ℚ),
      (Slider.setValue s v).1.value =
        match Slider.tickStep s with
        | none => if v < s.min then s.min else if s.max < v then s.max else v
        | some step => s.min +
            (pyRound (((if v < s.min then s.min
              else if s.max < v then s.max else v) - s.min) / step) : ℚ) *
              step) ∧
    (∃ s f, Slider.construct ⟨0, 0, 1, none, 0⟩ none 0 10 (some 3) 1 =
        Except.ok (s, f) ∧
      Slider.tickStep s = some 5 ∧
      (Slider.setValue s 7).1.value = 5 ∧
      Slider.tickValue (Slider.setValue s 7).1 = some 2) := by
  constructor
  · intro s v
    rw [Slider.setValue_fst]
    show Slider.roundValue s _ = _
    unfold Slider.roundValue
    rfl
  · refine ⟨⟨5, 0, 10, some 3, 1⟩, [0], ?_, ?_, ?_, ?_⟩
    · norm_num [Slider.construct, Slider.setMin, Slider.setMax,
        Slider.setTickCount, Slider.applyTickCount, Slider.setValue,
        Slider.roundValue, Slider.tickStep, pyRound]
    · norm_num [Slider.tickStep]
    · norm_num [Slider.setValue, Slider.roundValue, Slider.tickStep, pyRound]
    · norm_num [Slider.tickValue, Slider.setValue, Slider.roundValue,
        Slider.tickStep, pyRound]

/-- Claim C7: setting `DateInput.min` or `DateInput.max` to a date outside
the supported epoch window `[1800-01-01, 8999-12-31]` raises a range error
with the widget state (value, min and max) unchanged: the error carries
the state at the point of the raise, which is the original state. -/
theorem claim_C7_range_error_fail_fast :
    ∀ (today : ℤ) (s : DateInputState) (d : ℤ) (a : DateArg),
      (a = DateArg.dateV d ∨ a = DateArg.strV d ∨ a = DateArg.datetimeV d) →
      (d < MIN_DATE ∨ MAX_DATE < d) →
      DateInput.setMin today s a = Except.error (DIErr.rangeError, s) ∧
      DateInput.setMax today s a = Except.error (DIErr.rangeError, s) := by
  intro today s d a ha hd
  have hMM : MIN_DATE < MAX_DATE := by decide
  have hcc : convertChecked d true = Except.error DIErr.rangeError := by
    unfold convertChecked
    rcases hd with hd | hd
    · simp [hd]
    · have hnlt : ¬ (d < MIN_DATE) := by omega
      simp [hnlt, hd]
  have hconv : ∀ (mdef : ℤ), (match a with
      | DateArg.null => Except.ok mdef
      | _ => convertDate today a true) = Except.error DIErr.rangeError := by
    intro mdef
    rcases ha with rfl | rfl | rfl <;> exact hcc
  constructor
  · unfold DateInput.setMin
    rw [hconv MIN_DATE]
  · unfold DateInput.setMax
    rw [hconv MAX_DATE]

/-- Witness for C7: the year-10000 date is rejected and the state is
untouched. -/
theorem claim_C7_witness :
    DateInput.setMin 0 ⟨0, 0, 0, 0⟩ (DateArg.dateV (mkDate 10000 1 1)) =
      Except.error (DIErr.rangeError, (⟨0, 0, 0, 0⟩ : DateInputState)) ∧
    DateInput.setMax 0 ⟨0, 0, 0, 0⟩ (DateArg.dateV (mkDate 10000 1 1)) =
      Except.error (DIErr.rangeError, (⟨0, 0, 0, 0⟩ : DateInputState)) :=
  claim_C7_range_error_fail_fast 0 ⟨0, 0, 0, 0⟩ (mkDate 10000 1 1)
    (DateArg.dateV (mkDate 10000 1 1)) (Or.inl rfl) (Or.inr (by decide))

/-- Claim C9 (amended): the Integer-Range Adapter invariant — native
integer position equals the proportional mapping of the cached logical
value, or `0` on a zero span — holds after every `set_value`; `set_min`,
`set_max` and `set_tick_count` do not touch the native position at all, so
after those operations alone the invariant can be broken (it is
re-established because the Slider controller always follows them with a
`set_value`). -/
theorem claim_C9_int_adapter_amended :
    (∀ (st : IntSliderState) (v : ℚ), IntSlider.Inv (IntSlider.set_value st v)) ∧
    (∀ (st : IntSliderState) (v : ℚ),
      (IntSlider.set_min st v).int_value = st.int_value ∧
      (IntSlider.set_min st v).int_max = st.int_max) ∧
    (∀ (st : IntSliderState) (v : ℚ),
      (IntSlider.set_max st v).int_value = st.int_value ∧
      (IntSlider.set_max st v).int_max = st.int_max) ∧
    (∀ (st : IntSliderState) (tc : Option ℤ),
      (IntSlider.set_tick_count st tc).int_value = st.int_value) :=
  ⟨fun _ _ => rfl, fun _ _ => ⟨rfl, rfl⟩, fun _ _ => ⟨rfl, rfl⟩,
   fun st tc => by cases tc <;> rfl⟩

/-- Counterexample to C9 as stated: after `set_min` alone the native
position no longer matches the proportional mapping. -/
theorem claim_C9_counterexample :
    IntSlider.Inv ⟨5, 0, 10, false, 5000, 10000, false⟩ ∧
    ¬ IntSlider.Inv (IntSlider.set_min ⟨5, 0, 10, false, 5000, 10000, false⟩ 4) := by
  constructor
  · norm_num [IntSlider.Inv, pyRound]
  · norm_num [IntSlider.Inv, IntSlider.set_min, pyRound]

/-- Claim C10: a discrete slider whose range has zero span (`min = max`)
has `tick_step = None` and `tick_value = None`, and every assignment to
`tick_value` (an integer or `None`) raises `ValueError` with the state
unchanged. -/
theorem claim_C10_degenerate_discrete :
    ∀ (s : SliderState) (n : ℤ), s.tick_count = some n → s.min = s.max →
      Slider.tickStep s = none ∧ Slider.tickValue s = none ∧
      ∀ tv : Option ℤ,
        Slider.setTickValue s tv = Except.error (SlErr.valueError, s) := by
  intro s n htc he
  have hts : Slider.tickStep s = none := by
    unfold Slider.tickStep
    rw [htc]
    dsimp only
    rw [if_pos he.symm]
  refine ⟨hts, ?_, ?_⟩
  · unfold Slider.tickValue
    rw [htc, hts]
  · intro tv
    unfold Slider.setTickValue
    rw [htc]
    cases tv with
    | none => rfl
    | some t => rw [hts]

/-- Witness for C10 at a concrete degenerate discrete slider. -/
theorem claim_C10_witness :
    Slider.tickStep ⟨5, 5, 5, some 3, 0⟩ = none ∧
    Slider.tickValue ⟨5, 5, 5, some 3, 0⟩ = none ∧
    ∀ tv : Option ℤ, Slider.setTickValue ⟨5, 5, 5, some 3, 0⟩ tv =
      Except.error (SlErr.valueError, (⟨5, 5, 5, some 3, 0⟩ : SliderState)) :=
  claim_C10_degenerate_discrete ⟨5, 5, 5, some 3, 0⟩ 3 rfl rfl

/-- Counterexample to C3 as stated: on a reachable discrete slider
(`min = 0`, `max = 10`, `tick_count = 3`) the input `2` lies strictly
inside the range, yet tick rounding stores `min`, so "the resulting value
equals `min` or `max` exactly when the assigned input fell outside that
bound" is false. -/
theorem claim_C3_counterexample :
    ∃ s f, Slider.construct ⟨0, 0, 1, none, 0⟩ none 0 10 (some 3) 1 =
        Except.ok (s, f) ∧
      (Slider.setValue s 2).1.value = s.min ∧ ¬ (2 ≤ s.min) ∧
      s.min < s.max := by
  refine ⟨⟨5, 0, 10, some 3, 1⟩, [0], ?_, ?_, ?_, ?_⟩
  · norm_num [Slider.construct, Slider.setMin, Slider.setMax,
      Slider.setTickCount, Slider.applyTickCount, Slider.setValue,
      Slider.roundValue, Slider.tickStep, pyRound]
  · norm_num [Slider.setValue, Slider.roundValue, Slider.tickStep, pyRound]
  · norm_num
  · norm_num

/-- Claim C3 (amended): after a value assignment the result lies in
`[min, max]`; an input at or beyond a bound is stored exactly as that
bound; conversely, for a `DateInput` and for a continuous `Slider` with
`min < max` the result equals a bound only when the input was at or
beyond it (discrete sliders can also reach a bound by tick rounding); and
`DateInput(min="1999-01-01", max="1999-12-31", value="2050-01-01")` holds
the value `date(1999, 12, 31)`. -/
theorem claim_C3_clipping_amended :
    (∀ (s : SliderState) (v : ℚ), Slider.WF s →
      Slider.Inv (Slider.setValue s v).1) ∧
    (∀ (s : SliderState) (v : ℚ), Slider.WF s →
      (v ≤ s.min → (Slider.setValue s v).1.value = s.min) ∧
      (s.max ≤ v → (Slider.setValue s v).1.value = s.max)) ∧
    (∀ (s : SliderState) (v : ℚ), s.tick_count = none → s.min < s.max →
      ((Slider.setValue s v).1.value = s.min ↔ v ≤ s.min) ∧
      ((Slider.setValue s v).1.value = s.max ↔ s.max ≤ v)) ∧
    (∀ (s : DateInputState) (d : ℤ), s.min < s.max →
      (((DateInput.applyValue s d).1.value = s.min ↔ d ≤ s.min) ∧
       ((DateInput.applyValue s d).1.value = s.max ↔ s.max ≤ d))) ∧
    (∀ (today : ℤ) (s0 : DateInputState) (h : ℕ),
      ∃ s f, DateInput.construct today s0 (DateArg.strV (mkDate 2050 1 1))
          (DateArg.strV (mkDate 1999 1 1)) (DateArg.strV (mkDate 1999 12 31))
          h = Except.ok (s, f) ∧ s.value = mkDate 1999 12 31) := by
  refine ⟨?_, ?_, ?_, ?_, ?_⟩
  · intro s v hW
    exact (Slider.setValue_good s hW v).2.1
  · intro s v hW
    constructor
    · intro hvle
      rw [Slider.setValue_fst]
      show Slider.roundValue s _ = s.min
      have hcl : (if v < s.min then s.min
          else if s.max < v then s.max else v) = s.min := by
        split_ifs <;> linarith [hW.1]
      rw [hcl, Slider.roundValue_min]
    · intro hvge
      rw [Slider.setValue_fst]
      show Slider.roundValue s _ = s.max
      have hcl : (if v < s.min then s.min
          else if s.max < v then s.max else v) = s.max := by
        split_ifs <;> linarith [hW.1]
      rw [hcl]
      exact Slider.roundValue_max s hW
  · intro s v htc0 hlt
    have hts : Slider.tickStep s = none := by
      unfold Slider.tickStep
      rw [htc0]
    have hval : (Slider.setValue s v).1.value =
        (if v < s.min then s.min else if s.max < v then s.max else v) := by
      rw [Slider.setValue_fst]
      show Slider.roundValue s _ = _
      unfold Slider.roundValue
      rw [hts]
    rw [hval]
    constructor
    · constructor
      · intro hcl
        split_ifs at hcl <;> linarith
      · intro hle
        split_ifs <;> linarith
    · constructor
      · intro hcl
        split_ifs at hcl <;> linarith
      · intro hge
        split_ifs <;> linarith
  · intro s d hlt
    rw [DateInput.applyValue_fst]
    show ((if d < s.min then s.min else if s.max < d then s.max else d) =
        s.min ↔ d ≤ s.min) ∧
      ((if d < s.min then s.min else if s.max < d then s.max else d) =
        s.max ↔ s.max ≤ d)
    constructor
    · constructor
      · intro hcl
        split_ifs at hcl <;> omega
      · intro hle
        split_ifs <;> omega
    · constructor
      · intro hcl
        split_ifs at hcl <;> omega
      · intro hge
        split_ifs <;> omega
  · intro today s0 h
    have hc1 : (match DateArg.strV (mkDate 1999 1 1) with
        | DateArg.null => Except.ok MIN_DATE
        | _ => convertDate today (DateArg.strV (mkDate 1999 1 1)) true) =
        Except.ok (mkDate 1999 1 1) :=
      convertChecked_true_ok (by decide) (by decide)
    have hc2 : (match DateArg.strV (mkDate 1999 12 31) with
        | DateArg.null => Except.ok MAX_DATE
        | _ => convertDate today (DateArg.strV (mkDate 1999 12 31)) true) =
        Except.ok (mkDate 1999 12 31) :=
      convertChecked_true_ok (by decide) (by decide)
    have hc3 : convertDate today (DateArg.strV (mkDate 2050 1 1)) false =
        Except.ok (mkDate 2050 1 1) := rfl
    unfold DateInput.construct
    rw [DateInput.setMin_eq_of_conv hc1]
    dsimp only
    rw [DateInput.setMax_eq_of_conv hc2]
    dsimp only
    rw [DateInput.setValue_eq_of_conv hc3]
    dsimp only
    refine ⟨_, _, rfl, ?_⟩
    norm_num [DateInput.applyValue, mkDate]

/-- Witness for the amended C3: the concrete spec example evaluated at a
concrete initial backend state, plus a continuous-slider boundary case. -/
theorem claim_C3_witness :
    (∃ s f, DateInput.construct 0 ⟨0, 0, 0, 5⟩
        (DateArg.strV (mkDate 2050 1 1)) (DateArg.strV (mkDate 1999 1 1))
        (DateArg.strV (mkDate 1999 12 31)) 9 = Except.ok (s, f) ∧
      s.value = mkDate 1999 12 31) ∧
    ((Slider.setValue ⟨1, 0, 10, none, 1⟩ (-3)).1.value =
      (⟨1, 0, 10, none, 1⟩ : SliderState).min) := by
  constructor
  · exact claim_C3_clipping_amended.2.2.2.2 0 ⟨0, 0, 0, 5⟩ 9
  · exact (claim_C3_clipping_amended.2.1 ⟨1, 0, 10, none, 1⟩ (-3)
      ⟨by norm_num, fun n hn => by simp at hn⟩).1 (by norm_num)

/-- Counterexample to C5 as stated: a reachable discrete slider with
`tick_count = 3` but `min = max` has `tick_value = None`, not an integer
in `[1, 3]`. -/
theorem claim_C5_counterexample :
    ∃ s f, Slider.construct ⟨0, 0, 1, none, 0⟩ (some 5) 5 5 (some 3) 7 =
        Except.ok (s, f) ∧ Slider.Reach s ∧ s.tick_count = some 3 ∧
      Slider.tickValue s = none := by
  have hok : Slider.construct ⟨0, 0, 1, none, 0⟩ (some 5) 5 5 (some 3) 7 =
      Except.ok (⟨5, 5, 5, some 3, 7⟩, [0]) := by
    norm_num [Slider.construct, Slider.setMin, Slider.setMax,
      Slider.setTickCount, Slider.applyTickCount, Slider.setValue,
      Slider.roundValue, Slider.tickStep, pyRound]
  refine ⟨⟨5, 5, 5, some 3, 7⟩, [0], hok, ?_, rfl, ?_⟩
  · exact Slider.Reach.init ⟨0, 0, 1, none, 0⟩ rfl (some 5) 5 5 (some 3) 7
      _ _ hok
  · norm_num [Slider.tickValue, Slider.tickStep]

/-- Claim C5 (amended): for every reachable discrete slider state with
`tick_count = n` and a non-degenerate range (`min ≠ max`), `tick_value`
is an integer `t ∈ [1, n]` and `value = min + (t - 1) * tick_step`
exactly. -/
theorem claim_C5_tick_value_amended :
    ∀ (s : SliderState) (n : ℤ), Slider.Reach s → s.tick_count = some n →
      s.min ≠ s.max →
      ∃ t : ℤ, Slider.tickValue s = some t ∧ 1 ≤ t ∧ t ≤ n ∧
        ∃ step : ℚ, Slider.tickStep s = some step ∧
          s.value = s.min + ((t : ℚ) - 1) * step := by
  intro s n hreach htc hne
  obtain ⟨⟨hmm, hwf⟩, ⟨hi1, hi2⟩, hot⟩ := Slider.reach_good hreach
  have hn2 : (2 : ℤ) ≤ n := hwf n htc
  have hts : Slider.tickStep s = some ((s.max - s.min) / ((n : ℚ) - 1)) := by
    unfold Slider.tickStep
    rw [htc]
    dsimp only
    rw [if_neg (fun hh => hne hh.symm)]
  have hn1q : (1 : ℚ) ≤ (n : ℚ) - 1 := by
    have h2 : (2 : ℚ) ≤ (n : ℚ) := by exact_mod_cast hn2
    linarith
  have hlt : s.min < s.max := lt_of_le_of_ne hmm hne
  have hstep_pos : 0 < (s.max - s.min) / ((n : ℚ) - 1) :=
    div_pos (by linarith) (by linarith)
  obtain ⟨k, hk⟩ := hot _ hts
  have hsne : (s.max - s.min) / ((n : ℚ) - 1) ≠ 0 := ne_of_gt hstep_pos
  have hkq : (s.value - s.min) / ((s.max - s.min) / ((n : ℚ) - 1)) =
      ((k : ℤ) : ℚ) := by
    rw [hk, add_sub_cancel_left]
    exact mul_div_cancel_right₀ _ hsne
  have hmul : ((n : ℚ) - 1) * ((s.max - s.min) / ((n : ℚ) - 1)) =
      s.max - s.min := by
    field_simp
  have hk0 : 0 ≤ k := by
    have hq0 : 0 ≤ (k : ℚ) := by
      by_contra hneg
      push_neg at hneg
      have hlt0 : (k : ℚ) * ((s.max - s.min) / ((n : ℚ) - 1)) < 0 :=
        mul_neg_of_neg_of_pos hneg hstep_pos
      linarith
    exact_mod_cast hq0
  have hkn : k ≤ n - 1 := by
    have hle : (k : ℚ) * ((s.max - s.min) / ((n : ℚ) - 1)) ≤
        ((n : ℚ) - 1) * ((s.max - s.min) / ((n : ℚ) - 1)) := by
      linarith
    have hq : (k : ℚ) ≤ (n : ℚ) - 1 := (mul_le_mul_right hstep_pos).mp hle
    have hq' : (k : ℚ) ≤ ((n - 1 : ℤ) : ℚ) := by
      push_cast
      linarith
    exact_mod_cast hq'
  refine ⟨k + 1, ?_, by omega, by omega, _, hts, ?_⟩
  · unfold Slider.tickValue
    rw [htc, hts]
    dsimp only
    rw [hkq, pyRound_intCast]
  · rw [hk]
    push_cast
    ring

/-- Witness for the amended C5 at a concrete reachable discrete slider. -/
theorem claim_C5_witness :
    ∃ t : ℤ, Slider.tickValue ⟨5, 0, 10, some 3, 1⟩ = some t ∧ 1 ≤ t ∧
      t ≤ 3 ∧ ∃ step : ℚ, Slider.tickStep ⟨5, 0, 10, some 3, 1⟩ = some step ∧
        (⟨5, 0, 10, some 3, 1⟩ : SliderState).value =
          (⟨5, 0, 10, some 3, 1⟩ : SliderState).min + ((t : ℚ) - 1) * step := by
  apply claim_C5_tick_value_amended ⟨5, 0, 10, some 3, 1⟩ 3
  · exact Slider.Reach.init ⟨0, 0, 1, none, 0⟩ rfl none 0 10 (some 3) 1 _ [0]
      (by norm_num [Slider.construct, Slider.setMin, Slider.setMax,
        Slider.setTickCount, Slider.applyTickCount, Slider.setValue,
        Slider.roundValue, Slider.tickStep, pyRound])
  · rfl
  · norm_num

/-- Claim C8: constructing a `DateInput` or a `Slider` never invokes the
caller-supplied `on_change` handler, for every combination of constructor
arguments: the real handler is installed only after all initial mutations
run under the wrapped `None` handler. -/
theorem claim_C8_construct_never_fires :
    (∀ (s0 : SliderState) (value : Option ℚ) (mn mx : ℚ) (tc : Option ℤ)
        (h : ℕ) (s : SliderState) (f : List ℕ),
      Slider.construct s0 value mn mx tc h = Except.ok (s, f) → h ≠ 0 →
      h ∉ f) ∧
    (∀ (today : ℤ) (s0 : DateInputState) (v mn mx : DateArg) (h : ℕ)
        (s : DateInputState) (f : List ℕ),
      DateInput.construct today s0 v mn mx h = Except.ok (s, f) → h ≠ 0 →
      h ∉ f) := by
  constructor
  · intro s0 value mn mx tc h s f hok hne hmem
    exact hne ((Slider.slider_construct_fires hok).2 h hmem)
  · intro today s0 v mn mx h s f hok hne hmem
    exact hne ((DateInput.dateinput_construct_fires hok).2 h hmem)

/-- Witness for C8: concrete constructions whose recorded firings miss the
user handler. -/
theorem claim_C8_witness :
    (1 : ℕ) ∉ ([0] : List ℕ) ∧ (9 : ℕ) ∉ ([0, 0] : List ℕ) := by
  constructor
  · exact claim_C8_construct_never_fires.1 ⟨0, 0, 1, none, 0⟩ none 0 10
      (some 3) 1 ⟨5, 0, 10, some 3, 1⟩ [0]
      (by norm_num [Slider.construct, Slider.setMin, Slider.setMax,
        Slider.setTickCount, Slider.applyTickCount, Slider.setValue,
        Slider.roundValue, Slider.tickStep, pyRound]) (by decide)
  · exact claim_C8_construct_never_fires.2 0 ⟨0, 0, 0, 5⟩
      (DateArg.strV (mkDate 2050 1 1)) (DateArg.strV (mkDate 1999 1 1))
      (DateArg.strV (mkDate 1999 12 31)) 9
      ⟨mkDate 1999 12 31, mkDate 1999 1 1, mkDate 1999 12 31, 9⟩ [0, 0]
      rfl (by decide)

end Toga
